import Mathlib

/-!
Verification development for the WebRTC file-transfer core of the `talk`
repository (src/hooks/useWebRTCFileTransfer.ts and src/hooks/useWebRTC.ts).

Shallow embedding conventions:
* Byte buffers (ArrayBuffer / Uint8Array contents) are `List Nat`, each
  element a byte value.  `fileId` strings are modelled by their UTF-8 byte
  lists (the generated ids are ASCII, so TextEncoder/TextDecoder round-trip
  is the identity on these lists).
* JavaScript `Map` objects are association lists in insertion order;
  `Map.set` on an existing key replaces in place, `Map.delete` removes.
* A JavaScript exception escaping a handler is modelled by `Except.error`;
  the browser event loop swallows such an exception, leaving the ambient
  state exactly as it stood when the exception was thrown (all statements
  executed before the throwing one in the source are pure local bindings).
* `Math.round` on a non-negative quotient is exact-rational
  round-half-up, modelled on naturals.
-/

namespace Talk

/-- 16 KiB chunk size, `const CHUNK_SIZE = 16384` in useWebRTCFileTransfer.ts. -/
def CHUNK_SIZE : Nat := 16384

/-- 10 MiB send cap, `10 * 1024 * 1024` in `queueFile`. -/
def MAX_FILE_SIZE : Nat := 10485760

/-- 64 KiB backpressure threshold, `bufferedAmount < 65536` in `sendFile`. -/
def BUFFER_THRESHOLD : Nat := 65536

/-- Frame encoding from `sendFile`'s `reader.onload` (lines 375-383):
`[1 byte: fileId length] [fileId bytes] [chunk payload]`.
`DataView.setUint8` stores its argument modulo 256. -/
def encodeFrame (fileId payload : List Nat) : List Nat :=
  (fileId.length % 256) :: (fileId ++ payload)

/-- Frame decoding from the binary branch of `handleDataChannelMessage`
(lines 100-105).  `none` models a thrown `RangeError`: `getUint8 0` throws
on an empty buffer, and `new Uint8Array(event.data, 1, fileIdLength)`
throws when `1 + fileIdLength` exceeds the buffer length.  Otherwise the
id bytes are sliced off and the rest is the chunk payload. -/
def decodeFrame (frame : List Nat) : Option (List Nat × List Nat) :=
  match frame with
  | [] => none
  | n :: rest =>
    if n ≤ rest.length then some (rest.take n, rest.drop n) else none

/-- A JavaScript runtime exception escaping the message handler. -/
inductive JsError
  | rangeError
deriving DecidableEq, Repr

/-- The `metadata` object sent in a `file-start` control message
(name/size/type/lastModified from lines 320-326); name and MIME type are
opaque tokens. -/
structure FileMeta where
  name : Nat
  size : Nat
  mime : Nat
  lastModified : Nat
deriving DecidableEq, Repr

/-- One entry of the `receivingFiles` map: accumulated chunks plus the
metadata from `file-start`. -/
structure RecvEntry where
  chunks : List (List Nat)
  meta : FileMeta
deriving DecidableEq, Repr

/-- `status` field of a `FileTransferProgress` record. -/
inductive TStatus
  | pending
  | transferring
  | completed
  | failed
deriving DecidableEq, Repr

/-- `direction` field of a `FileTransferProgress` record. -/
inductive TDirection
  | sending
  | receiving
deriving DecidableEq, Repr

/-- A `FileTransferProgress` record as passed to `updateProgress`. -/
structure Progress where
  fileId : List Nat
  fileName : Nat
  fileSize : Nat
  transferred : Nat
  percentage : Nat
  status : TStatus
  direction : TDirection
deriving DecidableEq, Repr

/-- Receiver-side session state: the `receivingFiles` map (insertion
order), the sequence of progress records emitted via `updateProgress`,
and the files handed to the `onFileReceived` collaborator (name paired
with the reassembled bytes). -/
structure ReceiverState where
  receivingFiles : List (List Nat × RecvEntry)
  progress : List Progress
  received : List (Nat × List Nat)
deriving DecidableEq, Repr

/-- The receiver before any message arrives. -/
def emptyReceiver : ReceiverState := ⟨[], [], []⟩

/-- `Map.get` on an association list. -/
def findEntry (m : List (List Nat × RecvEntry)) (k : List Nat) : Option RecvEntry :=
  match m with
  | [] => none
  | (k₁, v) :: rest => if k₁ = k then some v else findEntry rest k

/-- `Map.set`: replace in place if the key exists, else append. -/
def setEntry (m : List (List Nat × RecvEntry)) (k : List Nat) (v : RecvEntry) :
    List (List Nat × RecvEntry) :=
  match m with
  | [] => [(k, v)]
  | (k₁, v₁) :: rest =>
    if k₁ = k then (k, v) :: rest else (k₁, v₁) :: setEntry rest k v

/-- `Map.delete`. -/
def delEntry (m : List (List Nat × RecvEntry)) (k : List Nat) :
    List (List Nat × RecvEntry) :=
  match m with
  | [] => []
  | (k₁, v₁) :: rest =>
    if k₁ = k then rest else (k₁, v₁) :: delEntry rest k

/-- `Math.round((t / s) * 100)` in exact rational arithmetic:
round-half-up of `100 * t / s`.  (`s = 0` would give `NaN` in JavaScript;
it is mapped to 0 here and never reached by the claims.) -/
def jsRound100 (t s : Nat) : Nat :=
  if s = 0 then 0 else (200 * t + s) / (2 * s)

/-- `file-start` branch of `handleDataChannelMessage` (lines 80-95):
(re)sets the map entry with an empty chunk list and emits a 0% progress
record. -/
def handleFileStart (st : ReceiverState) (fid : List Nat) (m : FileMeta) :
    ReceiverState :=
  { st with
    receivingFiles := setEntry st.receivingFiles fid ⟨[], m⟩,
    progress := st.progress ++
      [⟨fid, m.name, m.size, 0, 0, .transferring, .receiving⟩] }

/-- `handleFileComplete` (lines 128-156): unknown `fileId` is a no-op;
otherwise the chunks are concatenated in arrival order, a 100% completed
progress record is emitted, the file is handed to `onFileReceived`, and
the map entry is deleted. -/
def handleFileComplete (st : ReceiverState) (fid : List Nat) : ReceiverState :=
  match findEntry st.receivingFiles fid with
  | none => st
  | some e =>
    { st with
      receivingFiles := delEntry st.receivingFiles fid,
      progress := st.progress ++
        [⟨fid, e.meta.name, e.meta.size, e.meta.size, 100, .completed, .receiving⟩],
      received := st.received ++ [(e.meta.name, e.chunks.foldr (· ++ ·) [])] }

/-- Binary branch of `handleDataChannelMessage` (lines 100-124).  A frame
whose declared id length exceeds the available bytes makes the handler
throw (`Except.error`); a well-formed frame for an unknown `fileId` is
dropped (`fileInfo` guard, line 108); otherwise the payload is appended
and a progress record with `Math.round(transferred / size * 100)` is
emitted — the percentage is not capped. -/
def handleBinaryMessage (st : ReceiverState) (frame : List Nat) :
    Except JsError ReceiverState :=
  match decodeFrame frame with
  | none => .error .rangeError
  | some (fid, chunkData) =>
    match findEntry st.receivingFiles fid with
    | none => .ok st
    | some e =>
      let chunks₁ := e.chunks ++ [chunkData]
      let transferred := (chunks₁.map List.length).sum
      .ok { st with
        receivingFiles := setEntry st.receivingFiles fid ⟨chunks₁, e.meta⟩,
        progress := st.progress ++
          [⟨fid, e.meta.name, e.meta.size, transferred,
            jsRound100 transferred e.meta.size, .transferring, .receiving⟩] }

/-- A message arriving on the data channel: a parsed `file-start` or
`file-end` control frame, or a raw binary chunk frame. -/
inductive DCMessage
  | fileStartMsg (fid : List Nat) (m : FileMeta)
  | fileEndMsg (fid : List Nat)
  | binary (frame : List Nat)
deriving DecidableEq, Repr

/-- `handleDataChannelMessage` dispatch (lines 75-125). -/
def handleDataChannelMessage (st : ReceiverState) (msg : DCMessage) :
    Except JsError ReceiverState :=
  match msg with
  | .fileStartMsg fid m => .ok (handleFileStart st fid m)
  | .fileEndMsg fid => .ok (handleFileComplete st fid)
  | .binary frame => handleBinaryMessage st frame

/-- One delivered message: an exception escaping the handler is swallowed
by the event loop with the state unchanged. -/
def stepReceiver (st : ReceiverState) (msg : DCMessage) : ReceiverState :=
  match handleDataChannelMessage st msg with
  | .ok s => s
  | .error _ => st

/-- Deliver a sequence of messages in channel order. -/
def runReceiver (st : ReceiverState) (msgs : List DCMessage) : ReceiverState :=
  msgs.foldl stepReceiver st

/-- The chunk slices of a file, from `readNextChunk` (lines 343-369):
`file.slice(offset, offset + CHUNK_SIZE)` starting at offset 0, advancing
by the actual slice length, stopping once `offset >= file.size`. -/
def fileChunks (bs : List Nat) : List (List Nat) :=
  if h : bs = [] then []
  else bs.take CHUNK_SIZE :: fileChunks (bs.drop CHUNK_SIZE)
termination_by bs.length
decreasing_by
  simp only [List.length_drop]
  have hp : 0 < bs.length := List.length_pos.mpr h
  simp only [CHUNK_SIZE]
  omega

/-- The full message sequence `sendFile` emits for one file (lines
305-446): a `file-start` carrying the file's metadata, one encoded binary
frame per chunk, then `file-end`. -/
def senderMessages (fid : List Nat) (name mime lastModified : Nat)
    (bs : List Nat) : List DCMessage :=
  DCMessage.fileStartMsg fid ⟨name, bs.length, mime, lastModified⟩ ::
    ((fileChunks bs).map (fun c => DCMessage.binary (encodeFrame fid c)) ++
      [DCMessage.fileEndMsg fid])

/-- Running offsets after each chunk send: `offset += chunk.byteLength`
(line 386). -/
def chunkOffsets (off : Nat) : List (List Nat) → List Nat
  | [] => []
  | c :: cs => (off + c.length) :: chunkOffsets (off + c.length) cs

/-- The successive values of the sender's `transferred` counter as
reported through `updateProgress` while chunks are sent: 0 at
`file-start`, then the offset after each chunk. -/
def senderTransferredSeq (bs : List Nat) : List Nat :=
  0 :: chunkOffsets 0 (fileChunks bs)

/-!
Sender-side event-loop model for `queueFile` / `sendFile` /
`processSendQueue` (lines 304-472, 599-627).

The single-threaded browser event loop is modelled with a timed task
queue: `setTimeout(f, d)` schedules a task at `now + d`; expired tasks run
earliest-deadline first, ties broken by scheduling order (the `seq`
counter), which is the HTML timer semantics.  A `FileReader` read is
modelled as completing on its own task with delay 0 (an admissible
timing).  File ids, generated in the source as `Date.now()` plus a random
base-36 suffix, are abstracted to a fresh-counter `nextFid` — only their
freshness and tagging role matter here.  `isChannelReady` together with
`dataChannel.readyState === "open"` is collapsed into one `channelOpen`
flag, and the data channel is assumed to drain instantly
(`bufferedAmount = 0`, so the post-chunk delay is always 1 ms); the
`establishConnection` call made by `queueFile` when disconnected touches
only the signaling side and no field of this state.
-/

/-- A frame sent on the data channel, tagged by file id. -/
inductive SFrame
  | fileStart (fid : Nat)
  | chunk (fid : Nat) (payload : List Nat)
  | fileEnd (fid : Nat)
deriving DecidableEq, Repr

/-- A pending event-loop task of the sender. -/
inductive STask
  | onload (fid : Nat) (bytes : List Nat) (offset : Nat)
  | readNext (fid : Nat) (bytes : List Nat) (offset : Nat)
  | processNext
deriving DecidableEq, Repr

/-- Sender-side state: virtual clock, pending tasks `(deadline, seq,
task)`, the ordered trace of frames sent on the channel, the
`sendQueue`, channel readiness, and the fresh-id counter. -/
structure SenderState where
  now : Nat
  taskSeq : Nat
  tasks : List (Nat × Nat × STask)
  trace : List SFrame
  sendQueue : List (List Nat)
  channelOpen : Bool
  nextFid : Nat
deriving DecidableEq, Repr

/-- The sender with an open channel and nothing in flight. -/
def senderInit : SenderState :=
  ⟨0, 0, [], [], [], true, 0⟩

/-- `setTimeout(task, delay)`. -/
def scheduleTask (st : SenderState) (delay : Nat) (t : STask) : SenderState :=
  { st with tasks := st.tasks ++ [(st.now + delay, st.taskSeq, t)],
            taskSeq := st.taskSeq + 1 }

/-- `readNextChunk` (lines 343-369): once `offset >= file.size`, send the
`file-end` control message (if the channel is still open); otherwise
slice the next chunk and start the asynchronous read. -/
def readNextChunkStep (st : SenderState) (fid : Nat) (bytes : List Nat)
    (offset : Nat) : SenderState :=
  if bytes.length ≤ offset then
    if st.channelOpen then { st with trace := st.trace ++ [.fileEnd fid] } else st
  else
    scheduleTask st 0 (.onload fid bytes offset)

/-- The synchronous prefix of `sendFile` (lines 305-431), assuming the
caller already checked the channel is open: allocate a fresh file id,
send the `file-start` control message, and call `readNextChunk` for
offset 0. -/
def sendFileStart (st : SenderState) (bytes : List Nat) : SenderState :=
  let fid := st.nextFid
  readNextChunkStep
    { st with nextFid := fid + 1, trace := st.trace ++ [.fileStart fid] }
    fid bytes 0

/-- `reader.onload` (lines 371-404): if the channel is open, frame and
send the chunk just read, advance the offset by its byte length, and
schedule `readNextChunk` after 1 ms (`bufferedAmount` below threshold in
this instant-drain model) — the buffered amount is never re-checked
before the next send.  A closed channel only reports a failed progress
record. -/
def onloadStep (st : SenderState) (fid : Nat) (bytes : List Nat)
    (offset : Nat) : SenderState :=
  if st.channelOpen then
    let c := (bytes.drop offset).take CHUNK_SIZE
    scheduleTask { st with trace := st.trace ++ [.chunk fid c] } 1
      (.readNext fid bytes (offset + c.length))
  else st

/-- `processNext` inside `processSendQueue` (lines 457-469): shift the
queue head and call `sendFile` on it; when `sendFile`'s promise resolves
(immediately after its synchronous prefix, since the chunk loop runs on
later tasks) schedule the next `processNext` 100 ms out if the queue is
still non-empty.  With a closed channel `sendFile` returns `false` and
the chain stops. -/
def processNextStep (st : SenderState) : SenderState :=
  match st.sendQueue with
  | [] => st
  | bytes :: rest =>
    if st.channelOpen then
      let st₁ := sendFileStart { st with sendQueue := rest } bytes
      if rest = [] then st₁ else scheduleTask st₁ 100 .processNext
    else { st with sendQueue := rest }

/-- `queueFile` (lines 600-627): reject files over the 10 MiB cap with
`false` and no other effect; with an open channel call `sendFile`
immediately; otherwise append to `sendQueue` (and possibly kick off
signaling, which is outside this state).  Returns the boolean given back
to the caller. -/
def queueFileStep (st : SenderState) (bytes : List Nat) : Bool × SenderState :=
  if MAX_FILE_SIZE < bytes.length then (false, st)
  else if st.channelOpen then (true, sendFileStart st bytes)
  else (true, { st with sendQueue := st.sendQueue ++ [bytes] })

/-- Dispatch one event-loop task. -/
def runTask (st : SenderState) : STask → SenderState
  | .onload fid bytes offset => onloadStep st fid bytes offset
  | .readNext fid bytes offset => readNextChunkStep st fid bytes offset
  | .processNext => processNextStep st

/-- The pending task with the least `(deadline, seq)` — the one the
event loop fires next. -/
def pickMinTask : List (Nat × Nat × STask) → Option (Nat × Nat × STask)
  | [] => none
  | t :: ts =>
    match pickMinTask ts with
    | none => some t
    | some m =>
      if t.1 < m.1 ∨ (t.1 = m.1 ∧ t.2.1 ≤ m.2.1) then some t else some m

/-- Remove the task with the given sequence number. -/
def removeSeq (s : Nat) : List (Nat × Nat × STask) → List (Nat × Nat × STask)
  | [] => []
  | t :: ts => if t.2.1 = s then ts else t :: removeSeq s ts

/-- Fire the next pending task, advancing the clock to its deadline. -/
def stepLoop (st : SenderState) : Option SenderState :=
  match pickMinTask st.tasks with
  | none => none
  | some t =>
    some (runTask
      { st with tasks := removeSeq t.2.1 st.tasks, now := Nat.max st.now t.1 }
      t.2.2)

/-- Run up to `n` event-loop steps. -/
def runSteps : Nat → SenderState → SenderState
  | 0, st => st
  | n + 1, st =>
    match stepLoop st with
    | none => st
    | some st₁ => runSteps n st₁

/-- Concrete run for C3: with the channel open, `queueFile` a 1-byte file
and then, while its transfer is still active, `queueFile` a second
1-byte file. -/
def c3Mid : SenderState :=
  (queueFileStep (queueFileStep senderInit [7]).2 [9]).2

/-- The same run driven to quiescence. -/
def c3Final : SenderState := runSteps 10 c3Mid

/-!
Flow-control timing model for the `bufferedAmount` check (lines 399-404).
-/

/-- The delay chosen after sending a chunk: 1 ms when `bufferedAmount`
is below the 64 KiB threshold, otherwise a single 10 ms wait. -/
def nextChunkDelay (bufferedAmount : Nat) : Nat :=
  if bufferedAmount < BUFFER_THRESHOLD then 1 else 10

/-- Timing trace of the chunk-send loop for one file.  `cs` lists the
chunk payload sizes; each send adds the frame size (1 length byte, the
file id, the payload) to the channel's buffered amount; the environment
drains `drain` bytes per millisecond.  Each entry records the send time
and the buffered amount just after that send; the next chunk is sent
after `nextChunkDelay` of that amount, unconditionally — the loop never
re-checks the buffer before sending. -/
def sendTrace (drain fidLen : Nat) : List Nat → Nat → Nat → List (Nat × Nat)
  | [], _, _ => []
  | c :: cs, t, b =>
    (t, b + (1 + fidLen + c)) ::
      sendTrace drain fidLen cs (t + nextChunkDelay (b + (1 + fidLen + c)))
        (b + (1 + fidLen + c) -
          Nat.min (b + (1 + fidLen + c)) (drain * nextChunkDelay (b + (1 + fidLen + c))))

/-- Concrete run for C8: a stalled channel (`drain = 0`), a 23-byte file
id (the `Date.now()_random` shape), five full 16 KiB chunks. -/
def c8Run : List (Nat × Nat) :=
  sendTrace 0 23 [16384, 16384, 16384, 16384, 16384] 0 0

/-!
ICE-candidate handling.

Call engine (src/hooks/useWebRTC.ts): `handleIceCandidate` (lines
305-326) buffers candidates into `iceCandidateQueue` until the remote
description is set; `handleOffer` / `handleAnswer` drain the queue with a
shift loop whose per-candidate failures are caught and logged.  The
environment decides which `addIceCandidate` calls fail (`addFails`).

File-transfer engine (src/hooks/useWebRTCFileTransfer.ts):
`handleFileIceCandidate` (lines 576-586) applies a candidate only when
the peer connection exists and its remote description is set — there is
no buffer, the else-path is empty.
-/

/-- Call-engine negotiation state relevant to candidate handling. -/
structure CallNegState where
  pcExists : Bool
  remoteDescSet : Bool
  queue : List Nat
  applied : List Nat
  attempted : List Nat
deriving DecidableEq, Repr

/-- `handleIceCandidate` of useWebRTC.ts: no peer connection is a no-op;
with the remote description set, attempt the add immediately (a failure
is caught and only logged); otherwise push onto `iceCandidateQueue`. -/
def handleIceCandidate (addFails : Nat → Bool) (st : CallNegState) (c : Nat) :
    CallNegState :=
  if st.pcExists then
    if st.remoteDescSet then
      { st with attempted := st.attempted ++ [c],
                applied := if addFails c then st.applied else st.applied ++ [c] }
    else { st with queue := st.queue ++ [c] }
  else st

/-- The drain loop of `handleOffer` / `handleAnswer`: shift candidates
one by one, attempting each add; a failing add is caught and logged and
the loop continues.  Returns the final `(applied, attempted)` lists. -/
def drainList (addFails : Nat → Bool) (applied attempted : List Nat) :
    List Nat → List Nat × List Nat
  | [] => (applied, attempted)
  | c :: rest =>
    drainList addFails (if addFails c then applied else applied ++ [c])
      (attempted ++ [c]) rest

/-- `setRemoteDescription` followed by the drain loop, the shared
fragment of `handleOffer` (lines 245-259) and `handleAnswer` (lines
286-298). -/
def onRemoteDescSet (addFails : Nat → Bool) (st : CallNegState) : CallNegState :=
  let p := drainList addFails st.applied st.attempted st.queue
  { st with remoteDescSet := true, queue := [], applied := p.1, attempted := p.2 }

/-- File-transfer-engine state relevant to candidate handling: note the
absence of any candidate queue, mirroring the source. -/
structure FileCandState where
  pcExists : Bool
  remoteDescSet : Bool
  applied : List Nat
deriving DecidableEq, Repr

/-- `handleFileIceCandidate` (lines 576-586), past its peer-id guard:
apply when `peerConnection.current` exists and `remoteDescription` is
set (an add failure is caught and logged); otherwise do nothing — the
candidate is dropped. -/
def handleFileIceCandidateStep (addFails : Nat → Bool) (st : FileCandState)
    (c : Nat) : FileCandState :=
  if st.pcExists ∧ st.remoteDescSet then
    { st with applied := if addFails c then st.applied else st.applied ++ [c] }
  else st

/-!
Signaling dispatch guards of useWebRTCFileTransfer.ts (lines 533-586):
every inbound `file_webrtc_offer` / `file_webrtc_answer` /
`file_webrtc_ice_candidate` handler begins with
`if (data.userId !== otherUserId) return;`.
-/

/-- An inbound signaling event, tagged with the originating user id
(modelled as its code-unit list). -/
inductive FTSigEvent
  | offer (userId : List Nat)
  | answer (userId : List Nat)
  | cand (userId : List Nat) (c : Nat)
deriving DecidableEq, Repr

/-- The originating user id of a signaling event. -/
def eventUser : FTSigEvent → List Nat
  | .offer u => u
  | .answer u => u
  | .cand u _ => u

/-- File-transfer negotiation state mutated by the signaling handlers:
peer-connection existence, remote description, count of answers emitted,
applied candidates. -/
structure FTSigState where
  pcExists : Bool
  remoteDescSet : Bool
  answersSent : Nat
  appliedCands : List Nat
deriving DecidableEq, Repr

/-- Effect of an own-peer signaling event (success path of the async
bodies): an offer creates the peer connection if absent, sets the remote
description and emits an answer; an answer sets the remote description
when a peer connection exists; a candidate is applied only when the
remote description is set (`handleFileIceCandidate`, no buffering). -/
def ftSigApply (st : FTSigState) : FTSigEvent → FTSigState
  | .offer _ =>
    { st with pcExists := true, remoteDescSet := true,
              answersSent := st.answersSent + 1 }
  | .answer _ =>
    if st.pcExists then { st with remoteDescSet := true } else st
  | .cand _ c =>
    if st.pcExists ∧ st.remoteDescSet then
      { st with appliedCands := st.appliedCands ++ [c] }
    else st

/-- One inbound signaling event, with the guard
`if (data.userId !== otherUserId) return;` in front. -/
def ftSigStep (otherUserId : List Nat) (st : FTSigState) (e : FTSigEvent) :
    FTSigState :=
  if eventUser e = otherUserId then ftSigApply st e else st

/-- Deliver a sequence of signaling events. -/
def ftSigRun (otherUserId : List Nat) (st : FTSigState)
    (es : List FTSigEvent) : FTSigState :=
  es.foldl (ftSigStep otherUserId) st

/-!
Role assignment (lines 497-525): `isInitiator.current = currentUserId <
otherUserId`, JavaScript code-unit lexicographic string comparison, and
only the initiator creates the data channel and emits the offer.
-/

/-- JavaScript string `<` on code-unit lists. -/
def jsStrLt : List Nat → List Nat → Bool
  | [], [] => false
  | [], _ :: _ => true
  | _ :: _, [] => false
  | a :: as, b :: bs =>
    if a < b then true else if b < a then false else jsStrLt as bs

/-- Whether the side with local id `localId` facing `remoteId` creates
and emits the offer in `establishConnection`: exactly the
`currentUserId < otherUserId` initiator test (line 499). -/
def createsOffer (localId remoteId : List Nat) : Bool :=
  jsStrLt localId remoteId

/-- Concrete message sequence for C5: a declared size of 10 bytes
followed by two 10-byte chunks — the sender delivers twice the declared
size. -/
def c5Msgs : List DCMessage :=
  [DCMessage.fileStartMsg [97] ⟨1, 10, 2, 0⟩,
   DCMessage.binary (encodeFrame [97] (List.replicate 10 1)),
   DCMessage.binary (encodeFrame [97] (List.replicate 10 2))]

/-- A receiver that has just processed `file-start` for file id `[97]`
with declared size 10. -/
def c5Entry : ReceiverState :=
  ⟨[([97], ⟨[], ⟨1, 10, 2, 0⟩⟩)], [], []⟩

/-!
Helper lemmas.
-/

/-- Decoding inverts encoding whenever the file id fits in the single
length byte (the generated ids are about 23 ASCII characters). -/
theorem decodeFrame_encodeFrame (fid p : List Nat) (h : fid.length ≤ 255) :
    decodeFrame (encodeFrame fid p) = some (fid, p) := by
  have hmod : fid.length % 256 = fid.length := Nat.mod_eq_of_lt (by omega)
  simp only [encodeFrame, decodeFrame, hmod, List.length_append]
  rw [if_pos (by omega)]
  rw [List.take_left, List.drop_left]

/-- Concatenating the chunk slices restores the file bytes. -/
theorem fileChunks_join (bs : List Nat) :
    (fileChunks bs).foldr (· ++ ·) [] = bs := by
  rw [fileChunks]
  split
  · simp [*]
  · rw [List.foldr_cons, fileChunks_join (bs.drop CHUNK_SIZE),
      List.take_append_drop]
termination_by bs.length
decreasing_by
  simp only [List.length_drop]
  have hp : 0 < bs.length := List.length_pos.mpr (by assumption)
  simp only [CHUNK_SIZE]
  omega

/-- Every chunk slice is non-empty. -/
theorem fileChunks_ne_nil (bs : List Nat) : ∀ c ∈ fileChunks bs, c ≠ [] := by
  rw [fileChunks]
  split
  · simp
  · intro c hc
    rcases List.mem_cons.mp hc with rfl | hmem
    · have hp : 0 < bs.length := List.length_pos.mpr (by assumption)
      have hlen : 0 < (bs.take CHUNK_SIZE).length := by
        rw [List.length_take]
        exact Nat.lt_min.mpr ⟨by norm_num [CHUNK_SIZE], hp⟩
      intro hnil
      rw [hnil] at hlen
      exact absurd hlen (by simp)
    · exact fileChunks_ne_nil (bs.drop CHUNK_SIZE) c hmem
termination_by bs.length
decreasing_by
  simp only [List.length_drop]
  have hp : 0 < bs.length := List.length_pos.mpr (by assumption)
  simp only [CHUNK_SIZE]
  omega

/-- The chunk lengths sum to the file size. -/
theorem fileChunks_sum_length (bs : List Nat) :
    ((fileChunks bs).map List.length).sum = bs.length := by
  rw [fileChunks]
  split
  · simp [*]
  · rw [List.map_cons, List.sum_cons, fileChunks_sum_length (bs.drop CHUNK_SIZE)]
    simp only [List.length_take, List.length_drop]
    omega
termination_by bs.length
decreasing_by
  simp only [List.length_drop]
  have hp : 0 < bs.length := List.length_pos.mpr (by assumption)
  simp only [CHUNK_SIZE]
  omega

/-- Offsets grow strictly along non-empty chunks. -/
theorem chunkOffsets_chain (cs : List (List Nat)) :
    ∀ off : Nat, (∀ c ∈ cs, c ≠ []) →
      List.Chain' (· < ·) (off :: chunkOffsets off cs) := by
  induction cs with
  | nil => intro off _; simp [chunkOffsets]
  | cons c cs ih =>
    intro off h
    have hc : 0 < c.length := List.length_pos.mpr (h c (by simp))
    rw [chunkOffsets, List.chain'_cons]
    exact ⟨by omega, ih (off + c.length) (fun d hd => h d (by simp [hd]))⟩

/-- The last offset is the starting offset plus the total chunk length. -/
theorem chunkOffsets_getLast (cs : List (List Nat)) :
    ∀ off : Nat,
      (off :: chunkOffsets off cs).getLast? =
        some (off + (cs.map List.length).sum) := by
  induction cs with
  | nil => intro off; simp [chunkOffsets]
  | cons c cs ih =>
    intro off
    rw [chunkOffsets, List.getLast?_cons_cons, ih (off + c.length)]
    simp only [List.map_cons, List.sum_cons]
    ring_nf

/-- Delivering the encoded chunk frames of one file to a receiver whose
map holds exactly that file accumulates the chunks in arrival order,
leaving the completed-file list untouched. -/
theorem run_chunks_single (fid : List Nat) (hf : fid.length ≤ 255)
    (cs : List (List Nat)) :
    ∀ (acc : List (List Nat)) (m : FileMeta) (prog : List Progress)
      (recv : List (Nat × List Nat)),
      ∃ prog₂,
        runReceiver ⟨[(fid, ⟨acc, m⟩)], prog, recv⟩
            (cs.map (fun c => DCMessage.binary (encodeFrame fid c))) =
          ⟨[(fid, ⟨acc ++ cs, m⟩)], prog ++ prog₂, recv⟩ := by
  induction cs with
  | nil => intro acc m prog recv; exact ⟨[], by simp [runReceiver]⟩
  | cons c cs ih =>
    intro acc m prog recv
    have hstep :
        stepReceiver ⟨[(fid, ⟨acc, m⟩)], prog, recv⟩
            (DCMessage.binary (encodeFrame fid c)) =
          ⟨[(fid, ⟨acc ++ [c], m⟩)],
            prog ++ [⟨fid, m.name, m.size, (((acc ++ [c]).map List.length).sum),
              jsRound100 (((acc ++ [c]).map List.length).sum) m.size,
              .transferring, .receiving⟩], recv⟩ := by
      simp [stepReceiver, handleDataChannelMessage, handleBinaryMessage,
        decodeFrame_encodeFrame fid c hf, findEntry, setEntry]
    obtain ⟨p₂, hp₂⟩ := ih (acc ++ [c]) m
      (prog ++ [⟨fid, m.name, m.size, (((acc ++ [c]).map List.length).sum),
        jsRound100 (((acc ++ [c]).map List.length).sum) m.size,
        .transferring, .receiving⟩]) recv
    refine ⟨[(⟨fid, m.name, m.size, (((acc ++ [c]).map List.length).sum),
      jsRound100 (((acc ++ [c]).map List.length).sum) m.size,
      .transferring, .receiving⟩ : Progress)] ++ p₂, ?_⟩
    rw [List.map_cons]
    rw [runReceiver, List.foldl_cons, ← runReceiver, hstep, hp₂]
    simp

/-- The drain loop attempts every queued candidate in order; a failing
add removes nothing else — every later non-failing candidate is still
applied. -/
theorem drainList_spec (addFails : Nat → Bool) (q : List Nat) :
    ∀ applied attempted : List Nat,
      drainList addFails applied attempted q =
        (applied ++ q.filter (fun c => !addFails c), attempted ++ q) := by
  induction q with
  | nil => intro applied attempted; simp [drainList]
  | cons c rest ih =>
    intro applied attempted
    by_cases h : addFails c = true <;>
      simp [drainList, h, ih, List.filter_cons]

/-- JavaScript string comparison is asymmetric-total on distinct
strings: exactly one direction of `<` holds. -/
theorem jsStrLt_asymm (a : List Nat) :
    ∀ b : List Nat, a ≠ b → (jsStrLt a b = true ↔ jsStrLt b a = false) := by
  induction a with
  | nil =>
    intro b hne
    cases b with
    | nil => exact absurd rfl hne
    | cons y ys => simp [jsStrLt]
  | cons x xs ih =>
    intro b hne
    cases b with
    | nil => simp [jsStrLt]
    | cons y ys =>
      by_cases hxy : x < y
      · have hyx : ¬ y < x := by omega
        simp [jsStrLt, hxy, hyx]
      · by_cases hyx : y < x
        · simp [jsStrLt, hxy, hyx]
        · have hx : x = y := by omega
          subst hx
          have hxs : xs ≠ ys := by
            intro hh; exact hne (by rw [hh])
          simp only [jsStrLt, lt_irrefl, if_false]
          exact ih ys hxs

/-- Foreign-peer events are dropped pointwise, so a run only depends on
the own-peer subsequence. -/
theorem ftSigRun_filter (otherUserId : List Nat) (es : List FTSigEvent) :
    ∀ st : FTSigState,
      ftSigRun otherUserId st
          (es.filter (fun e => decide (eventUser e = otherUserId))) =
        ftSigRun otherUserId st es := by
  induction es with
  | nil => intro st; simp [ftSigRun]
  | cons e es ih =>
    intro st
    by_cases h : eventUser e = otherUserId
    · have hc : decide (eventUser e = otherUserId) = true := by simp [h]
      simp only [List.filter_cons, hc, if_true]
      simp only [ftSigRun, List.foldl_cons]
      simpa only [ftSigRun] using ih (ftSigStep otherUserId st e)
    · have hc : decide (eventUser e = otherUserId) = false := by simp [h]
      have hstep : ftSigStep otherUserId st e = st := by
        simp [ftSigStep, h]
      simp only [List.filter_cons, hc, Bool.false_eq_true, if_false]
      simp only [ftSigRun, List.foldl_cons]
      rw [hstep]
      simpa only [ftSigRun] using ih st

/-!
Claim theorems.
-/

/-- C1: For every sender-generated file id (which fits in the one length
byte) and every payload, decoding an encoded frame returns exactly the
original `(fileId, payload)`; delivering a file's full message sequence
over the ordered channel makes the receiver hand over exactly the
original bytes (hence length `S`) and clear its reassembly map; and the
sender's `transferred` counter is strictly increasing and ends at `S`. -/
theorem C1_chunk_roundtrip_reassembly (fid bs : List Nat)
    (name mime lastModified : Nat) (h : fid.length ≤ 255) :
    (∀ payload : List Nat,
      decodeFrame (encodeFrame fid payload) = some (fid, payload)) ∧
    (runReceiver emptyReceiver
        (senderMessages fid name mime lastModified bs)).received = [(name, bs)] ∧
    (runReceiver emptyReceiver
        (senderMessages fid name mime lastModified bs)).receivingFiles = [] ∧
    List.Chain' (· < ·) (senderTransferredSeq bs) ∧
    (senderTransferredSeq bs).getLast? = some bs.length := by
  have hstart :
      stepReceiver emptyReceiver
          (DCMessage.fileStartMsg fid ⟨name, bs.length, mime, lastModified⟩) =
        ⟨[(fid, ⟨[], ⟨name, bs.length, mime, lastModified⟩⟩)],
          [⟨fid, name, bs.length, 0, 0, .transferring, .receiving⟩], []⟩ := by
    simp [stepReceiver, handleDataChannelMessage, handleFileStart, setEntry,
      emptyReceiver]
  obtain ⟨p₂, hp₂⟩ := run_chunks_single fid h (fileChunks bs) []
    ⟨name, bs.length, mime, lastModified⟩
    [⟨fid, name, bs.length, 0, 0, .transferring, .receiving⟩] []
  have hend : ∀ (chs : List (List Nat)) (prog : List Progress),
      stepReceiver ⟨[(fid, ⟨chs, ⟨name, bs.length, mime, lastModified⟩⟩)], prog, []⟩
          (DCMessage.fileEndMsg fid) =
        ⟨[], prog ++ [⟨fid, name, bs.length, bs.length, 100, .completed, .receiving⟩],
          [(name, chs.foldr (· ++ ·) [])]⟩ := by
    intro chs prog
    simp [stepReceiver, handleDataChannelMessage, handleFileComplete, findEntry,
      delEntry]
  have hsplit :
      runReceiver emptyReceiver (senderMessages fid name mime lastModified bs) =
        stepReceiver
          (runReceiver
            (stepReceiver emptyReceiver
              (DCMessage.fileStartMsg fid ⟨name, bs.length, mime, lastModified⟩))
            ((fileChunks bs).map (fun c => DCMessage.binary (encodeFrame fid c))))
          (DCMessage.fileEndMsg fid) := by
    simp only [senderMessages, runReceiver, List.foldl_cons, List.foldl_append,
      List.foldl_nil]
  rw [hstart, hp₂] at hsplit
  simp only [List.nil_append] at hsplit
  rw [hend] at hsplit
  refine ⟨fun p => decodeFrame_encodeFrame fid p h, ?_, ?_, ?_, ?_⟩
  · rw [hsplit]
    simp [fileChunks_join]
  · rw [hsplit]
  · exact chunkOffsets_chain (fileChunks bs) 0 (fileChunks_ne_nil bs)
  · rw [senderTransferredSeq, chunkOffsets_getLast, fileChunks_sum_length]
    simp

/-- Witness for C1 at file id `[97]` and file bytes `[1, 2, 3]`. -/
theorem C1_chunk_roundtrip_reassembly_witness :
    ([97] : List Nat).length ≤ 255 ∧
    ((∀ payload : List Nat,
        decodeFrame (encodeFrame [97] payload) = some ([97], payload)) ∧
      (runReceiver emptyReceiver
          (senderMessages [97] 1 2 3 [1, 2, 3])).received = [(1, [1, 2, 3])] ∧
      (runReceiver emptyReceiver
          (senderMessages [97] 1 2 3 [1, 2, 3])).receivingFiles = [] ∧
      List.Chain' (· < ·) (senderTransferredSeq [1, 2, 3]) ∧
      (senderTransferredSeq [1, 2, 3]).getLast? =
        some (List.length [1, 2, 3])) :=
  ⟨by decide, C1_chunk_roundtrip_reassembly [97] [1, 2, 3] 1 2 3 (by decide)⟩

/-- C2 counterexample: the frame `[5, 65]` declares a 5-byte file id but
carries only one further byte; the handler does not reject it gracefully
(it never returns `ok`) — it throws a `RangeError` from the
`new Uint8Array(event.data, 1, fileIdLength)` construction. -/
theorem C2_malformed_frame_counterexample :
    (handleBinaryMessage emptyReceiver [5, 65]).toOption = none ∧
    handleBinaryMessage emptyReceiver [5, 65] = Except.error JsError.rangeError :=
  ⟨rfl, rfl⟩

/-- C2 (amended): a binary frame whose declared id length exceeds the
remaining frame length makes `handleDataChannelMessage` throw an uncaught
`RangeError` rather than gracefully rejecting; the throw happens before
any mutation, so the frame is dropped and session state is unchanged and
later messages are still processed. -/
theorem C2_malformed_frame_throws (st : ReceiverState) (n : Nat)
    (rest : List Nat) (h : rest.length < n) :
    handleBinaryMessage st (n :: rest) = Except.error JsError.rangeError ∧
    stepReceiver st (DCMessage.binary (n :: rest)) = st := by
  have hd : decodeFrame (n :: rest) = none := by
    simp only [decodeFrame]
    rw [if_neg (by omega)]
  constructor
  · simp [handleBinaryMessage, hd]
  · simp [stepReceiver, handleDataChannelMessage, handleBinaryMessage, hd]

/-- Witness for C2 at the concrete frame `[5, 65]`. -/
theorem C2_malformed_frame_throws_witness :
    ([65] : List Nat).length < 5 ∧
    (handleBinaryMessage emptyReceiver (5 :: [65]) =
        Except.error JsError.rangeError ∧
      stepReceiver emptyReceiver (DCMessage.binary (5 :: [65])) = emptyReceiver) :=
  ⟨by decide, C2_malformed_frame_throws emptyReceiver 5 [65] (by decide)⟩

/-- C5 counterexample: with a declared size of 10 bytes and two 10-byte
chunks delivered, the emitted percentages are 0, 100, 200 — the reported
percentage is not capped at 100 (although all 20 bytes are retained). -/
theorem C5_percentage_uncapped_counterexample :
    (runReceiver emptyReceiver c5Msgs).progress.map Progress.percentage =
      [0, 100, 200] ∧
    ((runReceiver emptyReceiver c5Msgs).progress.any
      (fun p => decide (100 < p.percentage))) = true ∧
    (findEntry (runReceiver emptyReceiver c5Msgs).receivingFiles [97]).map
      (fun e => (e.chunks.map List.length).sum) = some 20 := by
  decide

/-- C5 (amended): after every chunk for a known file id, the emitted
percentage equals `Math.round(sum of received lengths / declared size *
100)` with no cap at 100 — it exceeds 100 when the sender delivers more
than the declared size — and all received bytes are retained in the
reassembly entry. -/
theorem C5_progress_formula (st : ReceiverState)
    (frame fid chunkData : List Nat) (e : RecvEntry)
    (h₁ : decodeFrame frame = some (fid, chunkData))
    (h₂ : findEntry st.receivingFiles fid = some e) :
    handleBinaryMessage st frame = Except.ok
      { st with
        receivingFiles :=
          setEntry st.receivingFiles fid ⟨e.chunks ++ [chunkData], e.meta⟩,
        progress := st.progress ++
          [⟨fid, e.meta.name, e.meta.size,
            ((e.chunks ++ [chunkData]).map List.length).sum,
            jsRound100 (((e.chunks ++ [chunkData]).map List.length).sum)
              e.meta.size,
            .transferring, .receiving⟩] } := by
  simp [handleBinaryMessage, h₁, h₂]

/-- Witness for C5 at the receiver holding file `[97]` of declared size
10, fed a 10-byte chunk. -/
theorem C5_progress_formula_witness :
    decodeFrame (encodeFrame [97] (List.replicate 10 1)) =
      some ([97], List.replicate 10 1) ∧
    findEntry c5Entry.receivingFiles [97] = some ⟨[], ⟨1, 10, 2, 0⟩⟩ ∧
    handleBinaryMessage c5Entry (encodeFrame [97] (List.replicate 10 1)) =
      Except.ok
        { c5Entry with
          receivingFiles := setEntry c5Entry.receivingFiles [97]
            ⟨[] ++ [List.replicate 10 1], (⟨1, 10, 2, 0⟩ : FileMeta)⟩,
          progress := c5Entry.progress ++
            [⟨[97], (⟨1, 10, 2, 0⟩ : FileMeta).name, (⟨1, 10, 2, 0⟩ : FileMeta).size,
              (([] ++ [List.replicate 10 1]).map List.length).sum,
              jsRound100 ((([] ++ [List.replicate 10 1]).map List.length).sum)
                (⟨1, 10, 2, 0⟩ : FileMeta).size,
              .transferring, .receiving⟩] } :=
  ⟨by decide, by decide,
    C5_progress_formula c5Entry (encodeFrame [97] (List.replicate 10 1)) [97]
      (List.replicate 10 1) ⟨[], ⟨1, 10, 2, 0⟩⟩ (by decide) (by decide)⟩

/-- C9: a well-formed binary chunk frame whose decoded file id has no
registered reassembly entry is silently discarded — the handler returns
the state unchanged, so no buffer is created, no bytes stored, no
progress emitted; likewise `file-end` for an unknown file id changes
nothing. -/
theorem C9_unknown_fileId_ignored (st : ReceiverState)
    (frame fid chunkData : List Nat)
    (h₁ : decodeFrame frame = some (fid, chunkData))
    (h₂ : findEntry st.receivingFiles fid = none) :
    handleBinaryMessage st frame = Except.ok st ∧
    stepReceiver st (DCMessage.binary frame) = st ∧
    handleFileComplete st fid = st := by
  refine ⟨?_, ?_, ?_⟩ <;>
    simp [handleBinaryMessage, stepReceiver, handleDataChannelMessage,
      handleFileComplete, h₁, h₂]

/-- Witness for C9: an empty receiver fed a well-formed chunk frame for
the unknown file id `[97]`, and a `file-end` for the same id. -/
theorem C9_unknown_fileId_ignored_witness :
    decodeFrame (encodeFrame [97] [1]) = some ([97], [1]) ∧
    findEntry emptyReceiver.receivingFiles [97] = none ∧
    (handleBinaryMessage emptyReceiver (encodeFrame [97] [1]) =
        Except.ok emptyReceiver ∧
      stepReceiver emptyReceiver (DCMessage.binary (encodeFrame [97] [1])) =
        emptyReceiver ∧
      handleFileComplete emptyReceiver [97] = emptyReceiver) :=
  ⟨by decide, by decide,
    C9_unknown_fileId_ignored emptyReceiver (encodeFrame [97] [1]) [97] [1]
      (by decide) (by decide)⟩

/-- C3 counterexample: with the channel open, `queueFile` of a second
file while the first is still transferring does not append it to the
send queue — both `file-start` frames are on the wire before either
`file-end`, and the full run sends `file-start` of file 1 (trace index 1)
before `file-end` of file 0 (trace index 4). -/
theorem C3_interleaving_counterexample :
    c3Mid.sendQueue = [] ∧
    c3Mid.trace = [SFrame.fileStart 0, SFrame.fileStart 1] ∧
    c3Final.trace = [SFrame.fileStart 0, SFrame.fileStart 1,
      SFrame.chunk 0 [7], SFrame.chunk 1 [9],
      SFrame.fileEnd 0, SFrame.fileEnd 1] :=
  ⟨rfl, rfl, rfl⟩

/-- C3 (amended): only files queued while the channel is not open are
appended to the SendQueue and later started from its head in FIFO order;
a `queueFile` call while the channel is open starts the new file
immediately — it is not appended to the queue and its `file-start` frame
is emitted at once, regardless of any active transfer, so chunk frames
of two files can interleave. -/
theorem C3_queue_behavior (st : SenderState) (bytes : List Nat)
    (hsize : bytes.length ≤ MAX_FILE_SIZE) :
    (st.channelOpen = false →
      queueFileStep st bytes =
        (true, { st with sendQueue := st.sendQueue ++ [bytes] })) ∧
    (st.channelOpen = true → bytes ≠ [] →
      (queueFileStep st bytes).2.trace =
          st.trace ++ [SFrame.fileStart st.nextFid] ∧
        (queueFileStep st bytes).2.sendQueue = st.sendQueue) ∧
    (∀ b rest, st.sendQueue = b :: rest → st.channelOpen = true → b ≠ [] →
      (processNextStep st).trace = st.trace ++ [SFrame.fileStart st.nextFid] ∧
      (processNextStep st).sendQueue = rest) := by
  have hnlt : ¬ MAX_FILE_SIZE < bytes.length := by omega
  refine ⟨?_, ?_, ?_⟩
  · intro hop
    simp [queueFileStep, hnlt, hop]
  · intro hop hne
    have hlen : ¬ bytes.length ≤ 0 := by
      have := List.length_pos.mpr hne
      omega
    constructor <;>
      simp [queueFileStep, hnlt, hop, sendFileStart, readNextChunkStep, hlen,
        scheduleTask]
  · intro b rest hq hop hb
    have hlen : ¬ b.length ≤ 0 := by
      have := List.length_pos.mpr hb
      omega
    cases rest with
    | nil =>
      constructor <;>
        simp [processNextStep, hq, hop, sendFileStart, readNextChunkStep, hlen,
          scheduleTask]
    | cons b₂ rest₂ =>
      constructor <;>
        simp [processNextStep, hq, hop, sendFileStart, readNextChunkStep, hlen,
          scheduleTask]

/-- Witness for C3 at a 1-byte file queued on the open-channel initial
state. -/
theorem C3_queue_behavior_witness :
    List.length [7] ≤ MAX_FILE_SIZE ∧
    ((queueFileStep senderInit [7]).2.trace =
        senderInit.trace ++ [SFrame.fileStart senderInit.nextFid] ∧
      (queueFileStep senderInit [7]).2.sendQueue = senderInit.sendQueue) :=
  ⟨by decide,
    (C3_queue_behavior senderInit [7] (by decide)).2.1 rfl (by decide)⟩

/-- C4 counterexample: in the file-transfer engine a candidate arriving
before the remote description is set leaves the state completely
unchanged — it is dropped, not enqueued into any candidate buffer. -/
theorem C4_file_candidate_drop_counterexample :
    handleFileIceCandidateStep (fun _ => false) ⟨true, false, []⟩ 5 =
      ⟨true, false, []⟩ ∧
    handleIceCandidate (fun _ => false) ⟨true, false, [], [], []⟩ 5 =
      ⟨true, false, [5], [], []⟩ :=
  ⟨rfl, rfl⟩

/-- C4 (amended): in the call engine, a candidate is applied immediately
when the remote description is set and buffered otherwise; setting the
remote description drains every buffered candidate exactly once in
arrival order, empties the buffer, and a failing add does not abort the
rest.  In the file-transfer engine there is no buffer: a candidate
arriving before the remote description is set is dropped. -/
theorem C4_candidate_buffering (addFails : Nat → Bool) (st : CallNegState)
    (stf : FileCandState) (c : Nat) :
    (st.pcExists = true → st.remoteDescSet = false →
      handleIceCandidate addFails st c = { st with queue := st.queue ++ [c] }) ∧
    (st.pcExists = true → st.remoteDescSet = true →
      handleIceCandidate addFails st c =
        { st with attempted := st.attempted ++ [c],
                  applied :=
                    if addFails c then st.applied else st.applied ++ [c] }) ∧
    ((onRemoteDescSet addFails st).remoteDescSet = true ∧
      (onRemoteDescSet addFails st).queue = [] ∧
      (onRemoteDescSet addFails st).attempted = st.attempted ++ st.queue ∧
      (onRemoteDescSet addFails st).applied =
        st.applied ++ st.queue.filter (fun d => !addFails d)) ∧
    (stf.pcExists = false ∨ stf.remoteDescSet = false →
      handleFileIceCandidateStep addFails stf c = stf) := by
  refine ⟨?_, ?_, ?_, ?_⟩
  · intro hpc hrd
    simp [handleIceCandidate, hpc, hrd]
  · intro hpc hrd
    simp [handleIceCandidate, hpc, hrd]
  · simp [onRemoteDescSet, drainList_spec]
  · intro hor
    rcases hor with h | h <;> simp [handleFileIceCandidateStep, h]

/-- Witness for C4: a fresh call engine buffers candidate 7; a fresh
file-transfer engine without a peer connection drops it. -/
theorem C4_candidate_buffering_witness :
    handleIceCandidate (fun _ => false) ⟨true, false, [], [], []⟩ 7 =
      { (⟨true, false, [], [], []⟩ : CallNegState) with queue := [] ++ [7] } ∧
    handleFileIceCandidateStep (fun _ => false) ⟨false, false, []⟩ 7 =
      ⟨false, false, []⟩ :=
  ⟨(C4_candidate_buffering (fun _ => false) ⟨true, false, [], [], []⟩
      ⟨false, false, []⟩ 7).1 rfl rfl,
    (C4_candidate_buffering (fun _ => false) ⟨true, false, [], [], []⟩
      ⟨false, false, []⟩ 7).2.2.2 (Or.inl rfl)⟩

/-- C6: `queueFile` returns `true` exactly when the file size is at or
below the 10 MiB cap, and on an oversized file it returns `false` with
the state bit-for-bit unchanged — no progress record, no queue append,
no frame ever sent or scheduled. -/
theorem C6_size_cap (st : SenderState) (bytes : List Nat) :
    ((queueFileStep st bytes).1 = true ↔ bytes.length ≤ MAX_FILE_SIZE) ∧
    (MAX_FILE_SIZE < bytes.length → queueFileStep st bytes = (false, st)) := by
  by_cases h : MAX_FILE_SIZE < bytes.length
  · constructor
    · simp only [queueFileStep, if_pos h]
      constructor
      · intro hfalse
        exact absurd hfalse (by simp)
      · intro hle
        omega
    · intro _
      simp [queueFileStep, h]
  · constructor
    · simp only [queueFileStep, if_neg h]
      split <;> simp <;> omega
    · intro hlt
      exact absurd hlt h

/-- Witness for C6 at a file one byte over the cap and a 1-byte file. -/
theorem C6_size_cap_witness :
    MAX_FILE_SIZE < (List.replicate (MAX_FILE_SIZE + 1) 0).length ∧
    queueFileStep senderInit (List.replicate (MAX_FILE_SIZE + 1) 0) =
      (false, senderInit) ∧
    (queueFileStep senderInit [7]).1 = true :=
  ⟨by simp only [List.length_replicate]; omega,
    (C6_size_cap senderInit (List.replicate (MAX_FILE_SIZE + 1) 0)).2
      (by simp only [List.length_replicate]; omega),
    (C6_size_cap senderInit [7]).1.mpr (by decide)⟩

/-- C7: for distinct endpoint identifiers the initiator decision
`currentUserId < otherUserId` is complementary — the side with local id
`a` creates the offer if and only if the side with local id `b` does
not, so exactly one offer is produced. -/
theorem C7_role_complementary (a b : List Nat) (h : a ≠ b) :
    createsOffer a b = true ↔ createsOffer b a = false := by
  simpa [createsOffer] using jsStrLt_asymm a b h

/-- Witness for C7 at the ids of the spec scenario, `a` and `b`. -/
theorem C7_role_complementary_witness :
    ([97] : List Nat) ≠ [98] ∧
    (createsOffer [97] [98] = true ↔ createsOffer [98] [97] = false) :=
  ⟨by decide, C7_role_complementary [97] [98] (by decide)⟩

/-- C8 counterexample: with a stalled channel (drain 0) and five full
16 KiB chunks, the buffered amount reaches 65632 ≥ 64 KiB after the
fourth send, yet the fifth chunk is sent anyway after a single 10 ms
wait — the sender does not wait until the buffer drops below the
threshold. -/
theorem C8_no_polling_counterexample :
    c8Run = [(0, 16408), (1, 32816), (2, 49224), (3, 65632), (13, 82040)] ∧
    BUFFER_THRESHOLD ≤ 65632 := by
  decide

/-- C8 (amended): after each chunk the next chunk is scheduled after
exactly `nextChunkDelay` of the just-measured buffered amount — 1 ms
below the 64 KiB threshold, a single 10 ms wait otherwise — and is then
sent unconditionally: every chunk of the file is sent, with consecutive
send times differing by exactly that one delay, with no re-check or
repeated polling of the buffered amount. -/
theorem C8_delay_schedule (drain fidLen : Nat) (cs : List Nat) :
    ∀ t b : Nat,
      (sendTrace drain fidLen cs t b).length = cs.length ∧
      List.Chain' (fun p q : Nat × Nat => q.1 = p.1 + nextChunkDelay p.2)
        (sendTrace drain fidLen cs t b) := by
  induction cs with
  | nil =>
    intro t b
    simp [sendTrace]
  | cons c cs ih =>
    intro t b
    constructor
    · simp only [sendTrace, List.length_cons]
      rw [(ih _ _).1]
    · cases cs with
      | nil => simp [sendTrace]
      | cons c₂ cs₂ =>
        simp only [sendTrace, List.chain'_cons]
        refine ⟨by trivial, ?_⟩
        have hchain := (ih (t + nextChunkDelay (b + (1 + fidLen + c)))
          (b + (1 + fidLen + c) -
            Nat.min (b + (1 + fidLen + c))
              (drain * nextChunkDelay (b + (1 + fidLen + c))))).2
        simpa only [sendTrace] using hchain

/-- C10: an inbound signaling event from a user other than the selected
peer is ignored — the state is unchanged — and a whole run of events
produces the same state as the run restricted to own-peer events. -/
theorem C10_foreign_peer_noninterference (otherUserId : List Nat)
    (st : FTSigState) (e : FTSigEvent) (es : List FTSigEvent)
    (h : eventUser e ≠ otherUserId) :
    ftSigStep otherUserId st e = st ∧
    ftSigRun otherUserId st
        (es.filter (fun d => decide (eventUser d = otherUserId))) =
      ftSigRun otherUserId st es :=
  ⟨by simp [ftSigStep, h], ftSigRun_filter otherUserId es st⟩

/-- Witness for C10: an offer from user `[120]` while the selected peer
is `[97]`. -/
theorem C10_foreign_peer_noninterference_witness :
    eventUser (FTSigEvent.offer [120]) ≠ [97] ∧
    (ftSigStep [97] ⟨false, false, 0, []⟩ (FTSigEvent.offer [120]) =
        ⟨false, false, 0, []⟩ ∧
      ftSigRun [97] ⟨false, false, 0, []⟩
          ([FTSigEvent.offer [120]].filter
            (fun d => decide (eventUser d = [97]))) =
        ftSigRun [97] ⟨false, false, 0, []⟩ [FTSigEvent.offer [120]]) :=
  ⟨by decide,
    C10_foreign_peer_noninterference [97] ⟨false, false, 0, []⟩
      (FTSigEvent.offer [120]) [FTSigEvent.offer [120]] (by decide)⟩

end Talk
